import Mathlib

/-!
Verification of the retrieval pipeline of the RAG data platform.

The development shallowly embeds the Python sources:
  * `backend/rag/vector_store.py`   (`FAISSVectorStore`)
  * `backend/rag/embeddings.py`     (`EmbeddingService`)
  * `backend/rag/schema_indexer.py` (`SchemaIndexer`)
  * `backend/agents/orchestrator.py`, `retrieval_agent.py`,
    `enrichment_agent.py`, `base_agent.py`

Machine floats are modelled as rationals; the FAISS `IndexFlatL2` exact
nearest-neighbour search is modelled as sorting all stored vectors by
squared L2 distance to the query (FAISS returns squared distances; the
induced order is the L2 order).  External capability calls (embedding
provider, SQL generation, SQL execution, enrichment providers, audit
sink) are passed in as explicit outcome values, mirroring §6 of the
design's provider contracts.
-/

/-- A stored vector (Python `list[float]`, modelled over `ℚ`). -/
abbrev Vec := List ℚ

/-- Squared L2 distance, the metric of `faiss.IndexFlatL2`. -/
def sqDist (u v : Vec) : ℚ := (List.zipWith (fun a b => (a - b) * (a - b)) u v).sum

/-- Distance of the query to every stored vector, tagged with its index.
Mirrors the distance table FAISS computes over all `ntotal` vectors. -/
def knnCand (vs : List Vec) (q : Vec) : List (Nat × ℚ) :=
  (List.range vs.length).map (fun i => (i, sqDist q (vs.getD i [])))

/-- Comparison used by the nearest-neighbour selection: ascending distance. -/
def distLE (a b : Nat × ℚ) : Prop := a.2 ≤ b.2

instance : DecidableRel distLE := fun a b => inferInstanceAs (Decidable (a.2 ≤ b.2))

instance : IsTotal (Nat × ℚ) distLE := ⟨fun a b => le_total a.2 b.2⟩

instance : IsTrans (Nat × ℚ) distLE := ⟨fun _ _ _ h h' => le_trans h h'⟩

/-- `index.search(q, k)`: the `k` nearest stored vectors by (squared) L2
distance, ascending; a stable sort keeps FAISS's earlier-index tie order. -/
def knn (vs : List Vec) (q : Vec) (k : Nat) : List (Nat × ℚ) :=
  (List.insertionSort distLE (knnCand vs q)).take k

/-- Metadata record attached to one indexed document.  `SchemaIndexer`
builds exactly these three shapes (`backend/rag/schema_indexer.py`,
`index_database_schema`); each carries a `table_name` key. -/
inductive DocMeta where
  | table (table_name text : String)
  | column (table_name column_name column_type text : String)
  | relationship (table_name fk_text text : String)
deriving DecidableEq

/-- The `table_name` entry of a metadata record (present on all shapes). -/
def DocMeta.tableName : DocMeta → String
  | .table t _ => t
  | .column t _ _ _ => t
  | .relationship t _ _ => t

/-- In-memory state of `FAISSVectorStore`: the FAISS index (`vectors`,
with `ntotal = vectors.length`) and the parallel `metadata` list. -/
structure Store where
  dimension : Nat
  vectors : List Vec
  metadata : List DocMeta
deriving DecidableEq

/-- `FAISSVectorStore.search` (vector_store.py lines 32-47): an empty
query embedding (the failure sentinel of `get_embedding`) yields `[]`;
otherwise FAISS is asked for `min(k, ntotal)` neighbours and each hit
whose index is a valid metadata position contributes one result. -/
def searchStore (s : Store) (query_embedding : Vec) (k : Nat) : List (DocMeta × ℚ) :=
  if query_embedding = [] then []
  else
    (knn s.vectors query_embedding (min k s.vectors.length)).filterMap
      (fun p => (s.metadata.get? p.1).map (fun m => (m, p.2)))

/-- The two persisted artifacts keyed by the path prefix:
`{index_path}.index` and `{index_path}.metadata`.  `none` models a file
that is missing or unreadable. -/
structure FS where
  indexFile : Option (List Vec)
  metaFile : Option (List DocMeta)
deriving DecidableEq

/-- `FAISSVectorStore.save_index`: writes both artifacts from the current
state (overwriting whatever was on disk). -/
def save_index (s : Store) : FS :=
  { indexFile := some s.vectors, metaFile := some s.metadata }

/-- `FAISSVectorStore.load_index` (lines 55-62): `faiss.read_index` runs
first; if it raises, the `except` leaves the state untouched.  If it
succeeds the index is replaced, and only then is the metadata pickle
read — if that read raises, the old metadata survives next to the newly
loaded vectors. -/
def load_index (s : Store) (fs : FS) : Store :=
  match fs.indexFile with
  | none => s
  | some vs =>
    match fs.metaFile with
    | none => { s with vectors := vs }
    | some ms => { s with vectors := vs, metadata := ms }

/-- `FAISSVectorStore.__init__`: fresh empty index; if the `.index` file
exists it is loaded via `load_index`. -/
def initStore (dim : Nat) (fs : FS) : Store :=
  if fs.indexFile.isSome then load_index ⟨dim, [], []⟩ fs else ⟨dim, [], []⟩

/-- `EmbeddingService.get_embeddings_batch`: returns the provider's
vectors on success and `[]` when the call raises (embeddings.py 29-39). -/
def get_embeddings_batch (outcome : Option (List Vec)) : List Vec :=
  outcome.getD []

/-- `FAISSVectorStore.add_documents` (lines 22-30).  The returned `Bool`
records whether `save_index` ran (a persistence write happened). -/
def add_documents (s : Store) (fs : FS) (outcome : Option (List Vec))
    (metadata : List DocMeta) : Store × FS × Bool :=
  let embeddings := get_embeddings_batch outcome
  if embeddings = [] then (s, fs, false)
  else
    let s' : Store := { s with vectors := s.vectors ++ embeddings,
                               metadata := s.metadata ++ metadata }
    (s', save_index s', true)

/-- `FAISSVectorStore.get_stats` (lines 64-70). -/
structure Stats where
  total_documents : Nat
  dimension : Nat
  metadata_count : Nat
deriving DecidableEq

def get_stats (s : Store) : Stats :=
  ⟨s.vectors.length, s.dimension, s.metadata.length⟩

/-- The documented invariant: vector count equals metadata count. -/
def StoreInv (s : Store) : Prop := s.vectors.length = s.metadata.length

/-- On-disk pair that loads consistently: whenever the index artifact is
readable, the metadata artifact is too and the counts agree. -/
def FSOk (fs : FS) : Prop :=
  match fs.indexFile, fs.metaFile with
  | some vs, some ms => vs.length = ms.length
  | some _, none => False
  | _, _ => True

/-- Contract of the OpenAI batch embedding call (§6: batch failure is
all-or-nothing): a successful call returns one vector per input text,
and the API rejects an empty input array, so success implies a
non-empty batch. -/
def ProviderOk (texts : List String) (outcome : Option (List Vec)) : Prop :=
  match outcome with
  | none => True
  | some vs => vs.length = texts.length ∧ texts ≠ []

/-- First-occurrence-preserving de-duplication into an accumulator;
mirrors the repeated `if x not in acc: acc.append(x)` idiom. -/
def dedupInto (acc : List String) (l : List String) : List String :=
  l.foldl (fun a x => if x ∈ a then a else a ++ [x]) acc

/-- Distinct elements of `l` in first-occurrence order. -/
def dedupF (l : List String) : List String := dedupInto [] l

/-- The `table_name` fields of a search-result list, in result order
(every metadata shape carries `table_name`, so the Python guard
`'table_name' in metadata` admits all of them). -/
def tableNamesOf (results : List (DocMeta × ℚ)) : List String :=
  results.map (fun r => r.1.tableName)

/-- `SchemaIndexer.get_relevant_tables` (schema_indexer.py 61-70): the
names are poured into a Python `set` and returned via `list(...)`.  Set
iteration order is implementation-defined, so the conversion is a
parameter `setList`; any actual CPython behaviour is some function that
returns the set's elements without duplicates. -/
def get_relevant_tables (setList : List String → List String)
    (s : Store) (emb : Vec) (k : Nat) : List String :=
  setList (tableNamesOf (searchStore s emb k))

/-- What it means for `setList` to be a possible `list(set(...))`
behaviour: duplicate-free output with exactly the input's members. -/
def SetEnum (f : List String → List String) : Prop :=
  ∀ l, (f l).Nodup ∧ ∀ x, x ∈ f l ↔ x ∈ l

/-- One legal set-enumeration order: distinct elements, reversed. -/
def revSetList (l : List String) : List String := (dedupF l).reverse

/-- Column names of table `t` among the search results of type
`column`, in result order. -/
def colNames (t : String) (results : List (DocMeta × ℚ)) : List String :=
  results.filterMap (fun r =>
    match r.1 with
    | .column tn cn _ _ => if tn = t then some cn else none
    | _ => none)

/-- One dict update of `get_relevant_columns`: create the key with `[c]`
if absent, else append `c` unless already present. -/
def updateAL (acc : List (String × List String)) (t c : String) :
    List (String × List String) :=
  match acc with
  | [] => [(t, [c])]
  | (t', l) :: rest =>
    if t' = t then (t', if c ∈ l then l else l ++ [c]) :: rest
    else (t', l) :: updateAL rest t c

/-- Dictionary lookup on the association-list model of a Python dict. -/
def lookAL (acc : List (String × List String)) (t : String) : Option (List String) :=
  match acc with
  | [] => none
  | (t', l) :: rest => if t' = t then some l else lookAL rest t

/-- One loop iteration of `get_relevant_columns`: only results whose
metadata `type` is `column` touch the dict. -/
def colStep (acc : List (String × List String)) (r : DocMeta × ℚ) :
    List (String × List String) :=
  match r.1 with
  | .column tn cn _ _ => updateAL acc tn cn
  | _ => acc

/-- The grouping loop of `SchemaIndexer.get_relevant_columns`. -/
def groupColumns (results : List (DocMeta × ℚ)) : List (String × List String) :=
  results.foldl colStep []

/-- `SchemaIndexer.get_relevant_columns` (schema_indexer.py 72-87). -/
def get_relevant_columns (s : Store) (emb : Vec) (k : Nat) :
    List (String × List String) :=
  groupColumns (searchStore s emb k)

/-- ASCII lowering of one character, as `str.lower()` acts on the
ASCII keywords involved. -/
def lowerChar (c : Char) : Char :=
  if 65 ≤ c.toNat ∧ c.toNat ≤ 90 then Char.ofNat (c.toNat + 32) else c

/-- `user_query.lower()`. -/
def lowerStr (s : String) : String := ⟨s.data.map lowerChar⟩

/-- Python's `needle in hay` substring test. -/
def substrB (needle hay : String) : Bool :=
  hay.data.tails.any (fun t => needle.data.isPrefixOf t)

/-- Market-data keywords of `EnrichmentAgent.execute` (line 31). -/
def marketKeywords : List String := ["stock", "ticker", "market", "price", "yahoo"]

/-- SEC-EDGAR keywords of `EnrichmentAgent.execute` (line 43). -/
def secKeywords : List String := ["sec", "edgar", "filing", "10-k", "10-q"]

/-- Whether any enrichment keyword occurs in the (lowered) question. -/
def keywordHit (q : String) : Bool :=
  (marketKeywords ++ secKeywords).any (fun kw => substrB kw q)

/-- A retrieved database row; only the keys the enrichment agent probes
(`ticker`, `name`) are relevant, `none` models an absent key. -/
structure Row where
  ticker : Option String
  name : Option String
deriving DecidableEq

/-- `EnrichmentAgent._extract_ticker`: the first row exposing a ticker. -/
def extractTicker (rows : List Row) : Option String :=
  rows.findSome? (fun r => r.ticker)

/-- `EnrichmentAgent._extract_company_identifier`: per row, `name` is
preferred over `ticker`. -/
def extractCompanyId (rows : List Row) : Option String :=
  rows.findSome? (fun r => match r.name with | some n => some n | none => r.ticker)

/-- One reasoning entry (`BaseAgent.log_reasoning`); `details` and the
timestamp are irrelevant to the claims and elided. -/
structure REntry where
  agent : String
  step : String
deriving DecidableEq

/-- Result dict of `EnrichmentAgent.execute`.  The `enriched_data` dict
is represented by its two possible entries. -/
structure EnrichResult where
  success : Bool
  market_data : Option String
  sec_data : Option String
  reasoning : List REntry
deriving DecidableEq

/-- `EnrichmentAgent.execute` (enrichment_agent.py 14-61).  `yahooRes` /
`secRes` are the outcomes of the external fetches (`none` = the provider
raised, returned no data, or was not configured). -/
def enrichExecute (query : String) (rows : List Row)
    (yahooRes secRes : Option String) : EnrichResult :=
  let q := lowerStr query
  let log0 : List REntry := [⟨"EnrichmentAgent", "enrichment_started"⟩]
  let marketHit := marketKeywords.any (fun kw => substrB kw q)
  let market_data : Option String :=
    if marketHit then
      match extractTicker rows with
      | some _ => yahooRes
      | none => none
    else none
  let log1 := log0 ++
    (if marketHit then
      match extractTicker rows, yahooRes with
      | some _, some _ => [⟨"EnrichmentAgent", "yahoo_finance_enrichment"⟩]
      | some _, none => [⟨"EnrichmentAgent", "yahoo_finance_error"⟩]
      | none, _ => []
    else [])
  let secHit := secKeywords.any (fun kw => substrB kw q)
  let sec_data : Option String :=
    if secHit then
      match extractCompanyId rows with
      | some _ => secRes
      | none => none
    else none
  let log2 := log1 ++
    (match sec_data with
     | some _ => [⟨"EnrichmentAgent", "sec_edgar_enrichment"⟩]
     | none => [])
  let log3 := log2 ++
    (if market_data.isNone && sec_data.isNone then
      [⟨"EnrichmentAgent", "no_enrichment_needed"⟩]
    else [])
  { success := true, market_data := market_data, sec_data := sec_data,
    reasoning := log3 }

/-- Result dict of `RetrievalAgent.execute`; absent keys of the failure
shapes are defaulted (`data`, `row_count`, `relevant_tables` are only
read by the orchestrator on the success path). -/
structure RetrievalResult where
  success : Bool
  error : Option String
  sql : Option String
  data : List Row
  row_count : Nat
  relevant_tables : List String
  reasoning : List REntry
deriving DecidableEq

/-- Result dict of `AnalysisAgent.execute`. -/
structure AnalysisResult where
  success : Bool
  answer : Option String
  summary : Option String
  insights : List String
  reasoning : List REntry
deriving DecidableEq

/-- Python truthiness test `not sql_result.get("sql")`: absent key or
empty string. -/
def sqlMissing (sqlGen : Option String) : Bool :=
  match sqlGen with
  | none => true
  | some s => s == ""

/-- `RetrievalAgent.execute` (retrieval_agent.py 18-90).  `sqlGen` is
the `sql` field of `SQLGenerator.generate_sql` (`none` = provider
failure); `execOut` is the database engine's outcome. -/
def retrievalExecute (_user_query : String) (relevant_tables : List String)
    (sqlGen : Option String) (execOut : Except String (List Row)) : RetrievalResult :=
  let log0 : List REntry :=
    [⟨"RetrievalAgent", "query_received"⟩, ⟨"RetrievalAgent", "schema_retrieval"⟩]
  if sqlMissing sqlGen then
    { success := false, error := some "Failed to generate SQL query", sql := none,
      data := [], row_count := 0, relevant_tables := [],
      reasoning := log0 ++ [⟨"RetrievalAgent", "sql_generation_failed"⟩] }
  else
    let sql := sqlGen.getD ""
    let log1 := log0 ++ [⟨"RetrievalAgent", "sql_generated"⟩]
    match execOut with
    | .error e =>
      { success := false, error := some ("Query execution failed: " ++ e),
        sql := some sql, data := [], row_count := 0, relevant_tables := [],
        reasoning := log1 ++ [⟨"RetrievalAgent", "query_execution_failed"⟩] }
    | .ok rows =>
      { success := true, error := none, sql := some sql, data := rows,
        row_count := rows.length, relevant_tables := relevant_tables,
        reasoning := log1 ++ [⟨"RetrievalAgent", "query_executed"⟩] }

/-- The persisted `QueryLog` row built by `AgentOrchestrator._log_query`. -/
structure AuditRecord where
  user_query : String
  generated_sql : Option String
  sql_result : Option (List Row)
  final_answer : Option String
  context_used : Option (List String)
  success : Bool
  error_message : Option String
  execution_time_ms : ℚ
  agent_reasoning : List REntry
deriving DecidableEq

/-- The response dict of `AgentOrchestrator.process_query`; `none`
models an absent key. -/
structure Response where
  success : Bool
  error : Option String
  query : String
  sql : Option String
  answer : Option String
  summary : Option String
  insights : List String
  data : Option (List Row)
  row_count : Option Nat
  relevant_tables : Option (List String)
  enriched_market : Option String
  enriched_sec : Option String
  execution_time_ms : ℚ
  flow_retrieval : Option String
  flow_analysis : Option String
  flow_enrichment : Option String
deriving DecidableEq

/-- `AgentOrchestrator.process_query` (orchestrator.py 25-105).  Times
are the successive `time.time()` samples: `t0` at start, `tFailLog` and
`tFailResp` on the failure path (lines 48 and 56), `tDone` on the
success path (line 68).  The second component lists the audit records
handed to `_log_query` — exactly one per path. -/
def process_query (user_query : String) (t0 tFailLog tFailResp tDone : ℚ)
    (retrieval_result : RetrievalResult)
    (analysisFn : String → RetrievalResult → AnalysisResult)
    (enrichFn : String → RetrievalResult → AnalysisResult → EnrichResult) :
    Response × List AuditRecord :=
  if retrieval_result.success = false then
    let rec1 : AuditRecord :=
      { user_query := user_query, generated_sql := retrieval_result.sql,
        sql_result := none, final_answer := none, context_used := none,
        success := false, error_message := retrieval_result.error,
        execution_time_ms := (tFailLog - t0) * 1000,
        agent_reasoning := retrieval_result.reasoning }
    ({ success := false, error := retrieval_result.error, query := user_query,
       sql := none, answer := none, summary := none, insights := [],
       data := none, row_count := none, relevant_tables := none,
       enriched_market := none, enriched_sec := none,
       execution_time_ms := (tFailResp - t0) * 1000,
       flow_retrieval := none, flow_analysis := none, flow_enrichment := none },
     [rec1])
  else
    let ana := analysisFn user_query retrieval_result
    let enr := enrichFn user_query retrieval_result ana
    let t := (tDone - t0) * 1000
    let enrichNonempty := enr.market_data.isSome || enr.sec_data.isSome
    let resp : Response :=
      { success := true, error := none, query := user_query,
        sql := retrieval_result.sql, answer := ana.answer, summary := ana.summary,
        insights := ana.insights, data := some retrieval_result.data,
        row_count := some retrieval_result.row_count,
        relevant_tables := some retrieval_result.relevant_tables,
        enriched_market := enr.market_data, enriched_sec := enr.sec_data,
        execution_time_ms := t, flow_retrieval := some "completed",
        flow_analysis := some "completed",
        flow_enrichment := some (if enrichNonempty then "completed" else "skipped") }
    let rec2 : AuditRecord :=
      { user_query := user_query, generated_sql := retrieval_result.sql,
        sql_result := some (retrieval_result.data.take 5),
        final_answer := ana.answer,
        context_used := some retrieval_result.relevant_tables,
        success := true, error_message := none, execution_time_ms := t,
        agent_reasoning :=
          retrieval_result.reasoning ++ ana.reasoning ++ enr.reasoning }
    (resp, [rec2])

/-- `AgentOrchestrator._log_query` (lines 118-148): the record reaches
the log table only if `db.commit()` succeeds; on an exception the
session is rolled back and nothing is persisted. -/
def persistAudit (sinkOk : Bool) (recs : List AuditRecord) : List AuditRecord :=
  if sinkOk then recs else []

/-- The enrichment stage as the orchestrator invokes it, with the two
external fetch outcomes fixed. -/
def enrichFnOf (yahooRes secRes : Option String) :
    String → RetrievalResult → AnalysisResult → EnrichResult :=
  fun q r _ => enrichExecute q r.data yahooRes secRes

/-! Concrete instances used by witnesses and counterexamples. -/

def mT0 : DocMeta := .table "companies" "Table: companies"

def mT1 : DocMeta := .table "investments" "Table: investments"

def mC0 : DocMeta := .column "companies" "ticker" "VARCHAR" "Table companies, Column ticker (type: VARCHAR)"

def mC1 : DocMeta := .column "companies" "name" "VARCHAR" "Table companies, Column name (type: VARCHAR)"

def mC2 : DocMeta := .column "investments" "amount" "NUMERIC" "Table investments, Column amount (type: NUMERIC)"

def emptyStore : Store := ⟨1536, [], []⟩

/-- A persisted pair whose `.index` artifact is readable but whose
`.metadata` artifact is missing. -/
def badFS : FS := ⟨some [[1]], none⟩

/-- A mutually consistent persisted pair. -/
def goodFS : FS := ⟨some [[1]], some [mT0]⟩

/-- Small populated store: three one-dimensional vectors with parallel
metadata. -/
def cStore : Store := ⟨1, [[0], [2], [1]], [mT0, mT1, mC0]⟩

/-- A store whose vector count (2) exceeds its metadata count (1). -/
def overStore : Store := ⟨1, [[0], [5]], [mT0]⟩

def cEmb : Vec := [0]

/-- Store for the table-name ordering counterexample: two table
documents at increasing distance from the query. -/
def cStore6 : Store := ⟨1, [[0], [1]], [.table "alpha" "Table: alpha", .table "beta" "Table: beta"]⟩

/-- Store exercising column grouping: column documents of two tables. -/
def cStore7 : Store := ⟨1, [[0], [1], [2], [3]], [mC0, mC2, mC1, mC0]⟩

def cAnaFn : String → RetrievalResult → AnalysisResult :=
  fun _ _ => ⟨true, some "answer", some "summary", [],
    [⟨"AnalysisAgent", "analysis_started"⟩, ⟨"AnalysisAgent", "analysis_completed"⟩]⟩

def cEnrFn : String → RetrievalResult → AnalysisResult → EnrichResult :=
  fun _ _ _ => ⟨true, none, none, [⟨"EnrichmentAgent", "enrichment_started"⟩]⟩

/-- A retrieval stage that failed at SQL generation. -/
def cRetrFail : RetrievalResult :=
  retrievalExecute "What was total revenue in 2023?" [] none (.ok [])

/-- A retrieval stage that succeeded with no rows. -/
def cRetrOk : RetrievalResult :=
  retrievalExecute "What was total revenue in 2023?" ["companies"]
    (some "SELECT 1") (.ok [])

/-! ## Vector-store persistence and invariant claims -/

/-- Claim C5: saving the index and reconstructing a fresh store from the
same path prefix restores the vectors, the metadata records in their
original order, and the document count. -/
theorem save_load_roundtrip (s : Store) :
    (initStore s.dimension (save_index s)).vectors = s.vectors ∧
    (initStore s.dimension (save_index s)).metadata = s.metadata ∧
    (get_stats (initStore s.dimension (save_index s))).total_documents =
      (get_stats s).total_documents := by
  simp [initStore, save_index, load_index, get_stats]

/-- Claim C2 amended: construction, `add_documents` (with the provider
returning one vector per metadata record), `save_index`, `search` and
`get_stats` preserve the count invariant, and `load_index` preserves it
provided the persisted artifacts are mutually consistent; a partial
load (readable index artifact next to a missing or unreadable metadata
artifact) is exactly the case excluded by `FSOk`. -/
theorem store_invariant_preserved (d : Nat) (s : Store) (fs : FS) (vs : List Vec)
    (mds : List DocMeta) (hInv : StoreInv s) :
    StoreInv (add_documents s fs none mds).1 ∧
    (vs.length = mds.length → StoreInv (add_documents s fs (some vs) mds).1) ∧
    (FSOk fs → StoreInv (load_index s fs)) ∧
    (FSOk fs → StoreInv (initStore d fs)) := by
  obtain ⟨fi, mf⟩ := fs
  refine ⟨?_, ?_, ?_, ?_⟩
  · simpa [add_documents, get_embeddings_batch] using hInv
  · intro hvm
    by_cases hv : vs = []
    · subst hv
      simpa [add_documents, get_embeddings_batch] using hInv
    · simp only [StoreInv] at hInv ⊢
      simp [add_documents, get_embeddings_batch, hv, hInv, hvm]
  · intro hok
    cases fi <;> cases mf <;>
      simp_all [StoreInv, FSOk, load_index]
  · intro hok
    cases fi <;> cases mf <;>
      simp_all [StoreInv, FSOk, load_index, initStore]

/-- Witness for `store_invariant_preserved` at a concrete store and a
consistent persisted pair. -/
theorem store_invariant_preserved_witness :
    StoreInv emptyStore ∧
    ((FSOk goodFS → StoreInv (load_index emptyStore goodFS)) ∧
      (FSOk goodFS → StoreInv (initStore 1536 goodFS))) :=
  ⟨by simp [StoreInv, emptyStore],
   ⟨(store_invariant_preserved 1536 emptyStore goodFS [[1]] [mT0]
      (by simp [StoreInv, emptyStore])).2.2.1,
    (store_invariant_preserved 1536 emptyStore goodFS [[1]] [mT0]
      (by simp [StoreInv, emptyStore])).2.2.2⟩⟩

/-- Counterexample to claim C2 as stated: loading a persisted pair whose
index artifact is readable but whose metadata artifact is missing
replaces the vectors and keeps the old metadata, so an
invariant-satisfying store is driven to a state with one vector and
zero metadata records. -/
theorem load_index_breaks_invariant :
    StoreInv emptyStore ∧ ¬ StoreInv (load_index emptyStore badFS) := by
  constructor
  · simp [StoreInv, emptyStore]
  · simp [StoreInv, emptyStore, badFS, load_index]

/-- Claim C4: `add_documents` is an atomic no-op when the batch
embedding call fails (state, persisted files and write flag all
unchanged); when the call succeeds — which under the provider contract
`ProviderOk` means one vector per text of a non-empty batch — the
vectors and metadata are appended and the new state is synchronously
flushed before returning. -/
theorem add_documents_atomic (s : Store) (fs : FS) (texts : List String)
    (outcome : Option (List Vec)) (mds : List DocMeta)
    (hp : ProviderOk texts outcome) :
    (outcome = none → add_documents s fs none mds = (s, fs, false)) ∧
    (∀ vs, outcome = some vs →
      (add_documents s fs (some vs) mds).1.vectors = s.vectors ++ vs ∧
      (add_documents s fs (some vs) mds).1.metadata = s.metadata ++ mds ∧
      (add_documents s fs (some vs) mds).2.1 =
        save_index (add_documents s fs (some vs) mds).1 ∧
      (add_documents s fs (some vs) mds).2.2 = true) := by
  constructor
  · intro _
    rfl
  · intro vs hvs
    subst hvs
    have hp' : vs.length = texts.length ∧ texts ≠ [] := hp
    have hv : vs ≠ [] := by
      intro h
      subst h
      exact hp'.2 (List.length_eq_zero.mp hp'.1.symm)
    simp [add_documents, get_embeddings_batch, hv]

/-- Witness for `add_documents_atomic`: one text, one returned vector. -/
theorem add_documents_atomic_witness :
    ProviderOk ["Table: companies"] (some [[1]]) ∧
    (add_documents emptyStore badFS (some [[1]]) [mT0]).2.2 = true :=
  ⟨⟨rfl, by decide⟩,
   ((add_documents_atomic emptyStore badFS ["Table: companies"] (some [[1]]) [mT0]
      ⟨rfl, by decide⟩).2 [[1]] rfl).2.2.2⟩

/-! ## Nearest-neighbour search claims -/

lemma length_filterMap_of_isSome {α β : Type} (f : α → Option β) :
    ∀ l : List α, (∀ a ∈ l, (f a).isSome) → (l.filterMap f).length = l.length := by
  intro l
  induction l with
  | nil => intro _; rfl
  | cons a l ih =>
    intro h
    have ha := h a (by simp)
    obtain ⟨b, hb⟩ := Option.isSome_iff_exists.mp ha
    simp [List.filterMap_cons, hb, ih (fun x hx => h x (by simp [hx]))]

lemma pairwise_filterMap_of {α β : Type} (R : α → α → Prop) (S : β → β → Prop)
    (f : α → Option β)
    (hf : ∀ a b x y, R a b → f a = some x → f b = some y → S x y) :
    ∀ l : List α, l.Pairwise R → (l.filterMap f).Pairwise S := by
  intro l
  induction l with
  | nil => intro _; simp
  | cons a l ih =>
    intro h
    rw [List.pairwise_cons] at h
    rw [List.filterMap_cons]
    cases hfa : f a with
    | none => exact ih h.2
    | some x =>
      rw [List.pairwise_cons]
      refine ⟨?_, ih h.2⟩
      intro y hy
      obtain ⟨b, hb, hfb⟩ := List.mem_filterMap.mp hy
      exact hf a b x y (h.1 b hb) hfa hfb

lemma knnCand_length (vs : List Vec) (q : Vec) : (knnCand vs q).length = vs.length := by
  simp [knnCand]

lemma knn_length (vs : List Vec) (q : Vec) (k : Nat) :
    (knn vs q k).length = min k vs.length := by
  simp [knn, List.length_take, List.length_insertionSort, knnCand_length]

lemma knn_fst_lt (vs : List Vec) (q : Vec) (k : Nat) (p : Nat × ℚ)
    (hp : p ∈ knn vs q k) : p.1 < vs.length := by
  have h1 : p ∈ List.insertionSort distLE (knnCand vs q) := List.take_subset _ _ hp
  have h2 : p ∈ knnCand vs q := (List.perm_insertionSort distLE _).subset h1
  simp only [knnCand, List.mem_map, List.mem_range] at h2
  obtain ⟨i, hilt, hpe⟩ := h2
  simpa [← hpe] using hilt

lemma knn_sorted (vs : List Vec) (q : Vec) (k : Nat) :
    (knn vs q k).Pairwise distLE := by
  have hp : (List.insertionSort distLE (knnCand vs q)).Pairwise distLE :=
    List.sorted_insertionSort distLE _
  exact hp.sublist (List.take_sublist _ _)

lemma searchStore_overStore : searchStore overStore cEmb 2 = [(mT0, 0)] := by
  norm_num [searchStore, cEmb, overStore, knn, knnCand, sqDist, mT0,
    List.insertionSort, List.orderedInsert, distLE, List.filterMap_cons,
    List.getElem?_cons_zero, List.getElem?_cons_succ, List.getElem?_nil]

lemma searchStore_eq (s : Store) (emb : Vec) (k : Nat) (hemb : emb ≠ []) :
    searchStore s emb k =
      (knn s.vectors emb (min k s.vectors.length)).filterMap
        (fun p => (s.metadata.get? p.1).map (fun m => (m, p.2))) := by
  simp [searchStore, hemb]

/-- Claim C1: when the vector count equals the metadata count and the
query embedding succeeded (non-empty failure sentinel), `search`
returns exactly `min k total_count` results — so exactly `k` when
`k ≤ total_count`, exactly `total_count` otherwise, and none on an
empty index — ordered non-decreasing by (squared) L2 distance. -/
theorem search_exact_and_sorted (s : Store) (emb : Vec) (k : Nat)
    (hlen : s.vectors.length = s.metadata.length) (hemb : emb ≠ []) :
    (searchStore s emb k).length = min k s.vectors.length ∧
    (searchStore s emb k).Pairwise (fun a b => a.2 ≤ b.2) := by
  rw [searchStore_eq s emb k hemb]
  constructor
  · rw [length_filterMap_of_isSome]
    · rw [knn_length]
      omega
    · intro p hp
      have hlt := knn_fst_lt _ _ _ p hp
      rw [Option.isSome_map']
      rw [List.get?_eq_get (show p.1 < s.metadata.length by omega)]
      rfl
  · apply pairwise_filterMap_of distLE _ _ _ _ (knn_sorted _ _ _)
    intro a b x y hR hfa hfb
    obtain ⟨m, _, hx⟩ := Option.map_eq_some'.mp hfa
    obtain ⟨m', _, hy⟩ := Option.map_eq_some'.mp hfb
    simp only [← hx, ← hy]
    exact hR

/-- Witness for `search_exact_and_sorted` on a three-document store. -/
theorem search_exact_and_sorted_witness :
    (cStore.vectors.length = cStore.metadata.length ∧ cEmb ≠ []) ∧
    (searchStore cStore cEmb 2).length = min 2 cStore.vectors.length :=
  ⟨⟨by decide, by decide⟩,
   (search_exact_and_sorted cStore cEmb 2 (by decide) (by decide)).1⟩

/-- Claim C10: `search` never reads an out-of-range metadata position —
every result pairs its distance with a record drawn from a valid index
below the metadata count, at most `min k total_count` results come
back, and a nearest-neighbour hit with no matching metadata record is
silently dropped: on a store with two vectors but one metadata record,
searching with `k = 2` yields strictly fewer than `min 2 total_count`
results instead of failing. -/
theorem search_safe_drop (s : Store) (emb : Vec) (k : Nat) (hemb : emb ≠ []) :
    (searchStore s emb k).length ≤ min k s.vectors.length ∧
    (∀ p ∈ searchStore s emb k, ∃ i, ∃ h : i < s.metadata.length,
      p.1 = s.metadata.get ⟨i, h⟩) ∧
    (searchStore overStore cEmb 2).length < min 2 overStore.vectors.length := by
  refine ⟨?_, ?_, ?_⟩
  · rw [searchStore_eq s emb k hemb]
    calc ((knn s.vectors emb (min k s.vectors.length)).filterMap
          (fun p => (s.metadata.get? p.1).map (fun m => (m, p.2)))).length
        ≤ (knn s.vectors emb (min k s.vectors.length)).length :=
          List.length_filterMap_le _ _
      _ = min (min k s.vectors.length) s.vectors.length := knn_length _ _ _
      _ ≤ min k s.vectors.length := by omega
  · intro p hp
    rw [searchStore_eq s emb k hemb] at hp
    obtain ⟨a, _, hfa⟩ := List.mem_filterMap.mp hp
    obtain ⟨m, hm, hx⟩ := Option.map_eq_some'.mp hfa
    obtain ⟨hlt, hget⟩ := List.get?_eq_some.mp hm
    exact ⟨a.1, hlt, by rw [hget, ← hx]⟩
  · rw [searchStore_overStore]
    decide

/-- Witness for `search_safe_drop` at the mismatched store. -/
theorem search_safe_drop_witness :
    cEmb ≠ [] ∧
    (searchStore overStore cEmb 2).length ≤ min 2 overStore.vectors.length :=
  ⟨by decide, (search_safe_drop overStore cEmb 2 (by decide)).1⟩

/-! ## Schema-indexer claims -/

lemma dedupInto_cons (acc : List String) (x : String) (l : List String) :
    dedupInto acc (x :: l) = dedupInto (if x ∈ acc then acc else acc ++ [x]) l := rfl

lemma dedupInto_nodup : ∀ (l acc : List String), acc.Nodup → (dedupInto acc l).Nodup := by
  intro l
  induction l with
  | nil => intro acc h; exact h
  | cons x l ih =>
    intro acc h
    rw [dedupInto_cons]
    by_cases hx : x ∈ acc
    · rw [if_pos hx]
      exact ih acc h
    · rw [if_neg hx]
      refine ih _ ?_
      refine (List.perm_append_singleton x acc).nodup_iff.mpr ?_
      exact List.nodup_cons.mpr ⟨hx, h⟩

lemma mem_dedupInto : ∀ (l acc : List String) (y : String),
    y ∈ dedupInto acc l ↔ y ∈ acc ∨ y ∈ l := by
  intro l
  induction l with
  | nil => intro acc y; simp [dedupInto]
  | cons x l ih =>
    intro acc y
    rw [dedupInto_cons]
    by_cases hx : x ∈ acc
    · rw [if_pos hx, ih]
      simp only [List.mem_cons]
      constructor
      · rintro (h | h)
        · exact Or.inl h
        · exact Or.inr (Or.inr h)
      · rintro (h | h | h)
        · exact Or.inl h
        · exact Or.inl (h ▸ hx)
        · exact Or.inr h
    · rw [if_neg hx, ih]
      simp [or_assoc]

lemma dedupF_nodup (l : List String) : (dedupF l).Nodup :=
  dedupInto_nodup l [] (by simp)

lemma mem_dedupF (l : List String) (y : String) : y ∈ dedupF l ↔ y ∈ l := by
  simp [dedupF, mem_dedupInto]

lemma setEnum_dedupF : SetEnum dedupF :=
  fun l => ⟨dedupF_nodup l, fun x => mem_dedupF l x⟩

lemma setEnum_rev : SetEnum revSetList :=
  fun l => ⟨List.nodup_reverse.mpr (dedupF_nodup l),
    fun x => by simp [revSetList, mem_dedupF]⟩

lemma searchStore_cStore6 :
    searchStore cStore6 cEmb 2 =
      [(.table "alpha" "Table: alpha", 0), (.table "beta" "Table: beta", 1)] := by
  norm_num [searchStore, cEmb, cStore6, knn, knnCand, sqDist,
    List.insertionSort, List.orderedInsert, distLE, List.filterMap_cons,
    List.getElem?_cons_zero, List.getElem?_cons_succ, List.getElem?_nil]

/-- Claim C6 amended: `get_relevant_tables` returns a duplicate-free
list containing exactly the `table_name` fields of the search results
(table, column and relationship results alike), but in the unspecified
iteration order of a Python `set` rather than first-occurrence order. -/
theorem relevant_tables_distinct (setList : List String → List String)
    (hset : SetEnum setList) (s : Store) (emb : Vec) (k : Nat) :
    (get_relevant_tables setList s emb k).Nodup ∧
    ∀ x, x ∈ get_relevant_tables setList s emb k ↔
      x ∈ tableNamesOf (searchStore s emb k) :=
  ⟨(hset _).1, fun x => (hset _).2 x⟩

/-- Witness for `relevant_tables_distinct` with a concrete legal set
enumeration on a two-table store. -/
theorem relevant_tables_distinct_witness :
    SetEnum dedupF ∧ (get_relevant_tables dedupF cStore6 cEmb 2).Nodup :=
  ⟨setEnum_dedupF,
   (relevant_tables_distinct dedupF setEnum_dedupF cStore6 cEmb 2).1⟩

/-- Counterexample to claim C6 as stated: `revSetList` is a legal
`list(set(...))` behaviour (duplicate-free, same members), yet on a
store holding tables `alpha` then `beta` at increasing distance it
returns the names in an order different from first occurrence by
ascending distance. -/
theorem relevant_tables_order_cex :
    SetEnum revSetList ∧
    get_relevant_tables revSetList cStore6 cEmb 2 ≠
      dedupF (tableNamesOf (searchStore cStore6 cEmb 2)) := by
  refine ⟨setEnum_rev, ?_⟩
  rw [get_relevant_tables, searchStore_cStore6]
  decide

lemma lookAL_updateAL : ∀ (acc : List (String × List String)) (t c t' : String),
    lookAL (updateAL acc t c) t' =
      if t' = t then
        match lookAL acc t with
        | some l => some (if c ∈ l then l else l ++ [c])
        | none => some [c]
      else lookAL acc t' := by
  intro acc
  induction acc with
  | nil =>
    intro t c t'
    by_cases h : t' = t
    · subst h
      simp [updateAL, lookAL]
    · have h' : ¬t = t' := fun he => h he.symm
      simp [updateAL, lookAL, h, h']
  | cons a rest ih =>
    intro t c t'
    obtain ⟨ta, la⟩ := a
    by_cases hta : ta = t
    · subst hta
      by_cases h : t' = ta
      · subst h
        simp [updateAL, lookAL]
      · have h' : ¬ta = t' := fun he => h he.symm
        simp [updateAL, lookAL, h, h']
    · by_cases h : t' = ta
      · subst h
        simp [updateAL, lookAL, hta]
      · have h' : ¬ta = t' := fun he => h he.symm
        simp [updateAL, lookAL, hta, h', ih]

lemma colNames_cons (t : String) (r : DocMeta × ℚ) (rs : List (DocMeta × ℚ)) :
    colNames t (r :: rs) =
      match r.1 with
      | .column tn cn _ _ => if tn = t then cn :: colNames t rs else colNames t rs
      | _ => colNames t rs := by
  cases hr : r.1 with
  | column tn cn ct tx =>
    by_cases htn : tn = t
    · simp [colNames, List.filterMap_cons, hr, htn]
    · simp [colNames, List.filterMap_cons, hr, htn]
  | table a b => simp [colNames, List.filterMap_cons, hr]
  | relationship a b c => simp [colNames, List.filterMap_cons, hr]

lemma lookAL_groupCols : ∀ (rs : List (DocMeta × ℚ)) (acc : List (String × List String))
    (t : String),
    lookAL (rs.foldl colStep acc) t =
      match lookAL acc t with
      | some l => some (dedupInto l (colNames t rs))
      | none =>
        if colNames t rs = [] then none
        else some (dedupInto [] (colNames t rs)) := by
  intro rs
  induction rs with
  | nil =>
    intro acc t
    cases h : lookAL acc t <;> simp [colNames, dedupInto, h]
  | cons r rs ih =>
    intro acc t
    rw [List.foldl_cons, colNames_cons]
    cases hr : r.1 with
    | column tn cn ct tx =>
      have hstep : colStep acc r = updateAL acc tn cn := by
        simp [colStep, hr]
      rw [hstep, ih, lookAL_updateAL]
      by_cases htn : tn = t
      · subst htn
        cases hacc : lookAL acc tn with
        | some l => simp [hacc, dedupInto_cons]
        | none => simp [hacc, dedupInto_cons]
      · have h' : ¬t = tn := fun he => htn he.symm
        simp only [h', if_false, htn, if_neg]
    | table a b =>
      have hstep : colStep acc r = acc := by simp [colStep, hr]
      rw [hstep, ih]
    | relationship a b c =>
      have hstep : colStep acc r = acc := by simp [colStep, hr]
      rw [hstep, ih]

lemma searchStore_cStore7 :
    searchStore cStore7 cEmb 4 = [(mC0, 0), (mC2, 1), (mC1, 4), (mC0, 9)] := by
  norm_num [searchStore, cEmb, cStore7, knn, knnCand, sqDist, mC0, mC1, mC2,
    List.insertionSort, List.orderedInsert, distLE, List.filterMap_cons,
    List.getElem?_cons_zero, List.getElem?_cons_succ, List.getElem?_nil]

/-- Claim C7: `get_relevant_columns` consumes only search results whose
metadata type is `column`, groups their column names by `table_name`,
and each table's list is the column names discovered for that table in
ascending-distance order, de-duplicated keeping first occurrences. -/
theorem relevant_columns_grouped (s : Store) (emb : Vec) (k : Nat) (t : String) :
    lookAL (get_relevant_columns s emb k) t =
      (if colNames t (searchStore s emb k) = [] then none
       else some (dedupF (colNames t (searchStore s emb k)))) ∧
    ∀ l, lookAL (get_relevant_columns s emb k) t = some l → l.Nodup := by
  have hmain := lookAL_groupCols (searchStore s emb k) [] t
  have heq : lookAL (get_relevant_columns s emb k) t =
      (if colNames t (searchStore s emb k) = [] then none
       else some (dedupF (colNames t (searchStore s emb k)))) := by
    simpa [get_relevant_columns, groupColumns, lookAL, dedupF] using hmain
  refine ⟨heq, ?_⟩
  intro l hl
  rw [heq] at hl
  by_cases hc : colNames t (searchStore s emb k) = []
  · rw [if_pos hc] at hl
    simp at hl
  · rw [if_neg hc] at hl
    have hld : dedupF (colNames t (searchStore s emb k)) = l := by
      injection hl
    rw [← hld]
    exact dedupF_nodup _

/-- Witness for `relevant_columns_grouped`: on a store with column
documents of two tables (and a duplicated column hit), the `companies`
entry lists its columns in discovery order without duplicates. -/
theorem relevant_columns_grouped_witness :
    lookAL (get_relevant_columns cStore7 cEmb 4) "companies" =
      some ["ticker", "name"] := by
  rw [(relevant_columns_grouped cStore7 cEmb 4 "companies").1, searchStore_cStore7]
  decide

/-! ## Orchestrator claims -/

lemma retrievalExecute_fail_shape (q : String) (rt : List String)
    (sqlGen : Option String) (execOut : Except String (List Row))
    (hfail : (retrievalExecute q rt sqlGen execOut).success = false) :
    ((retrievalExecute q rt sqlGen execOut).error).isSome = true ∧
    (retrievalExecute q rt sqlGen execOut).reasoning.all
      (fun e => e.agent == "RetrievalAgent") = true := by
  by_cases hs : sqlMissing sqlGen = true
  · simp [retrievalExecute, hs]
  · cases execOut with
    | error e => simp [retrievalExecute, hs]
    | ok rows =>
      exfalso
      simp [retrievalExecute, hs] at hfail

/-- Claim C3: if the Retrieval stage fails (no SQL generated, or SQL
execution raised), the orchestrator answers with `success = false`, a
populated `error`, and no `data`/`answer` fields; the response and the
audit record are independent of the Analysis and Enrichment stages
(they are never run), exactly one audit record is written, and its
reasoning trail consists solely of Retrieval-agent entries. -/
theorem retrieval_failure_aborts (q : String) (t0 tFL tFR tD : ℚ)
    (rt : List String) (sqlGen : Option String) (execOut : Except String (List Row))
    (anaFn anaFn' : String → RetrievalResult → AnalysisResult)
    (enrFn enrFn' : String → RetrievalResult → AnalysisResult → EnrichResult)
    (hfail : (retrievalExecute q rt sqlGen execOut).success = false) :
    (process_query q t0 tFL tFR tD (retrievalExecute q rt sqlGen execOut)
      anaFn enrFn).1.success = false ∧
    (process_query q t0 tFL tFR tD (retrievalExecute q rt sqlGen execOut)
      anaFn enrFn).1.error = (retrievalExecute q rt sqlGen execOut).error ∧
    ((retrievalExecute q rt sqlGen execOut).error).isSome = true ∧
    (process_query q t0 tFL tFR tD (retrievalExecute q rt sqlGen execOut)
      anaFn enrFn).1.answer = none ∧
    (process_query q t0 tFL tFR tD (retrievalExecute q rt sqlGen execOut)
      anaFn enrFn).1.data = none ∧
    process_query q t0 tFL tFR tD (retrievalExecute q rt sqlGen execOut) anaFn enrFn =
      process_query q t0 tFL tFR tD (retrievalExecute q rt sqlGen execOut) anaFn' enrFn' ∧
    (process_query q t0 tFL tFR tD (retrievalExecute q rt sqlGen execOut)
      anaFn enrFn).2.length = 1 ∧
    ∀ r ∈ (process_query q t0 tFL tFR tD (retrievalExecute q rt sqlGen execOut)
      anaFn enrFn).2,
      r.agent_reasoning.all (fun e => e.agent == "RetrievalAgent") = true := by
  have hsh := retrievalExecute_fail_shape q rt sqlGen execOut hfail
  refine ⟨?_, ?_, hsh.1, ?_, ?_, ?_, ?_, ?_⟩
  · simp [process_query, hfail]
  · simp [process_query, hfail]
  · simp [process_query, hfail]
  · simp [process_query, hfail]
  · simp [process_query, hfail]
  · simp [process_query, hfail]
  · intro r hr
    simp [process_query, hfail] at hr
    rw [hr]
    exact hsh.2

/-- Witness for `retrieval_failure_aborts` on a SQL-generation failure. -/
theorem retrieval_failure_aborts_witness :
    (retrievalExecute "q1" [] none (Except.ok [])).success = false ∧
    (process_query "q1" 0 1 1 2 (retrievalExecute "q1" [] none (Except.ok []))
      cAnaFn cEnrFn).1.success = false :=
  ⟨by decide,
   (retrieval_failure_aborts "q1" 0 1 1 2 [] none (Except.ok []) cAnaFn cAnaFn
      cEnrFn cEnrFn (by decide)).1⟩

/-- Claim C8: once Retrieval succeeded, the overall `success` flag is
`true` whatever the enrichment providers do (including both failing),
and a question matching no enrichment keyword yields an empty
`enriched_data` mapping and the flow label `skipped`. -/
theorem enrichment_nonfatal (q : String) (t0 tFL tFR tD : ℚ)
    (retr : RetrievalResult)
    (anaFn : String → RetrievalResult → AnalysisResult)
    (hS : retr.success = true) :
    (∀ yahooRes secRes : Option String,
      (process_query q t0 tFL tFR tD retr anaFn
        (enrichFnOf yahooRes secRes)).1.success = true) ∧
    (keywordHit (lowerStr q) = false →
      ∀ yahooRes secRes : Option String,
        (enrichExecute q retr.data yahooRes secRes).market_data = none ∧
        (enrichExecute q retr.data yahooRes secRes).sec_data = none ∧
        (process_query q t0 tFL tFR tD retr anaFn
          (enrichFnOf yahooRes secRes)).1.flow_enrichment = some "skipped") := by
  have hS' : ¬retr.success = false := by simp [hS]
  constructor
  · intro y s
    simp [process_query, hS']
  · intro hkw y s
    have hall : (marketKeywords.any (fun kw => substrB kw (lowerStr q)) ||
        secKeywords.any (fun kw => substrB kw (lowerStr q))) = false := by
      rw [← List.any_append]
      exact hkw
    have hm : marketKeywords.any (fun kw => substrB kw (lowerStr q)) = false :=
      (Bool.or_eq_false_iff.mp hall).1
    have hsec : secKeywords.any (fun kw => substrB kw (lowerStr q)) = false :=
      (Bool.or_eq_false_iff.mp hall).2
    have he1 : (enrichExecute q retr.data y s).market_data = none := by
      simp [enrichExecute, hm]
    have he2 : (enrichExecute q retr.data y s).sec_data = none := by
      simp [enrichExecute, hsec]
    refine ⟨he1, he2, ?_⟩
    simp [process_query, hS', enrichFnOf, he1, he2]

/-- Witness for `enrichment_nonfatal`: the keyword-free question of
spec Scenario C, with both enrichment providers failing. -/
theorem enrichment_nonfatal_witness :
    (cRetrOk.success = true ∧
      keywordHit (lowerStr "What was total revenue in 2023?") = false) ∧
    (process_query "What was total revenue in 2023?" 0 1 1 2 cRetrOk cAnaFn
      (enrichFnOf none none)).1.success = true :=
  ⟨⟨by decide, by decide⟩,
   (enrichment_nonfatal "What was total revenue in 2023?" 0 1 1 2 cRetrOk cAnaFn
      (by decide)).1 none none⟩

/-- Claim C9 amended: on every path exactly one audit record is handed
to the audit sink, and it is persisted exactly when the sink commit
succeeds; its latency, measured from the pipeline start, is
non-negative whenever the clock samples do not run backwards. -/
theorem audit_logged_once (q : String) (t0 tFL tFR tD : ℚ)
    (retr : RetrievalResult)
    (anaFn : String → RetrievalResult → AnalysisResult)
    (enrFn : String → RetrievalResult → AnalysisResult → EnrichResult)
    (h1 : t0 ≤ tFL) (h2 : t0 ≤ tD) :
    (process_query q t0 tFL tFR tD retr anaFn enrFn).2.length = 1 ∧
    (persistAudit true (process_query q t0 tFL tFR tD retr anaFn enrFn).2).length = 1 ∧
    ∀ r ∈ (process_query q t0 tFL tFR tD retr anaFn enrFn).2,
      0 ≤ r.execution_time_ms := by
  by_cases hs : retr.success = false
  · refine ⟨by simp [process_query, hs], by simp [process_query, persistAudit, hs], ?_⟩
    intro r hr
    simp [process_query, hs] at hr
    rw [hr]
    show (0 : ℚ) ≤ (tFL - t0) * 1000
    exact mul_nonneg (sub_nonneg.mpr h1) (by norm_num)
  · refine ⟨by simp [process_query, hs], by simp [process_query, persistAudit, hs], ?_⟩
    intro r hr
    simp [process_query, hs] at hr
    rw [hr]
    show (0 : ℚ) ≤ (tD - t0) * 1000
    exact mul_nonneg (sub_nonneg.mpr h2) (by norm_num)

/-- Witness for `audit_logged_once` on a failing retrieval. -/
theorem audit_logged_once_witness :
    ((0 : ℚ) ≤ 1 ∧ (0 : ℚ) ≤ 2) ∧
    (process_query "q" 0 1 1 2 cRetrFail cAnaFn cEnrFn).2.length = 1 :=
  ⟨⟨by norm_num, by norm_num⟩,
   (audit_logged_once "q" 0 1 1 2 cRetrFail cAnaFn cEnrFn
      (by norm_num) (by norm_num)).1⟩

/-- Counterexample to claim C9 as stated: when the audit sink's commit
raises, `_log_query` swallows the exception and rolls back, so no audit
record at all is persisted for the request — not exactly one. -/
theorem audit_lost_on_sink_failure :
    (persistAudit false
      (process_query "q" 0 1 1 2 cRetrFail cAnaFn cEnrFn).2).length ≠ 1 := by
  simp [persistAudit]
